import Mathlib

/-!
Verification of the SmartContractAnalyser attack-episode pipeline.

Shallow embedding of the Python modules under `backend/modules/`
(`contract_compiler.py`, `contract_deployer.py`, `attack_executor.py`,
`attack_generator.py`, `attack_evaluator.py`).  Pure Python functions become
Lean functions; the external effects (LLM calls, `eval`, Web3/chain
transactions) are passed in as explicit outcome parameters, where an outcome
is either a returned value or a raised exception (`Res`).  Python dict keys
that may be absent are modelled with `Option` (an absent key and a key bound
to Python `None` are both `none`).
-/

/-- Outcome of a Python expression that may raise: a value or an exception
message.  Mirrors `try`/`except` control flow. -/
inductive Res (α : Type) where
  | ok (a : α)
  | exc (msg : String)
deriving DecidableEq, Repr

/-- Python values as they flow through the argument-synthesis and state code:
ints, strings, booleans, lists and byte strings. -/
inductive PyVal where
  | int (n : Int)
  | str (s : String)
  | bool (b : Bool)
  | list (l : List PyVal)
  | bytes (b : List (Fin 256))

/-- `needle.isPrefixOf hay` on raw character lists (Python `str.startswith`). -/
def startsWithL : List Char → List Char → Bool
  | [], _ => true
  | _ :: _, [] => false
  | a :: n, b :: h => a == b && startsWithL n h

/-- `needle in hay` on raw character lists (Python `in` on `str`). -/
def containsL (n : List Char) : List Char → Bool
  | [] => n.isEmpty
  | c :: t => startsWithL n (c :: t) || containsL n t

/-- Python `str.lower()` (ASCII case folding, which is all the pipeline uses). -/
def lowerStr (s : String) : String := String.mk (s.toList.map Char.toLower)

/-- Python `sub in s` for strings. -/
def strContains (s sub : String) : Bool := containsL sub.toList s.toList

/-- Python `str.strip()` on a character list. -/
def stripL (l : List Char) : List Char :=
  ((l.dropWhile Char.isWhitespace).reverse.dropWhile Char.isWhitespace).reverse

/-- One declared input of an ABI function (`{"name": ..., "type": ...}`). -/
structure AbiInput where
  name : String
  type : String
deriving DecidableEq, Repr

/-- One ABI entry.  `typ` is the Python `'type'` key (`"function"`,
`"constructor"`, `"fallback"`, `"receive"`, `"event"`); `stateMutability`
defaults to `""` exactly as the Python `f.get('stateMutability', '')` does. -/
structure AbiFn where
  name : String
  typ : String
  stateMutability : String := ""
  inputs : List AbiInput := []
deriving DecidableEq, Repr

/-- The part of a compiled/deployed contract dictionary the embedded
functions read: `contract_name` and `abi`. -/
structure ContractInfo where
  contract_name : String
  abi : List AbiFn := []
deriving DecidableEq, Repr

/-! ## Target Filter (`contract_compiler.is_exploitable_target`) -/

/-- `important_names` from `is_exploitable_target`. -/
def important_names : List String :=
  ["wallet", "bank", "dao", "crowdsale", "lottery", "fund", "proxy",
   "casino", "exchange", "ico", "sale", "pool", "staking"]

/-- `safe_names` from `is_exploitable_target`. -/
def safe_names : List String :=
  ["erc20", "standardtoken", "safemath", "ownable", "tokenbasic",
   "erc20basic", "math", "util", "interface", "library", "recipient"]

/-- `contract_compiler.is_exploitable_target`: ordered heuristic — safe-name
reject, then important-name accept, then payable accept, then
balance/fund/jackpot accept, else reject. -/
def is_exploitable_target (ci : ContractInfo) : Bool :=
  let name := lowerStr ci.contract_name
  if safe_names.any (fun n => strContains name n) then false
  else if important_names.any (fun n => strContains name n) then true
  else if ci.abi.any (fun f => f.typ == "function" && f.stateMutability == "payable") then true
  else if ci.abi.any (fun v => v.typ == "function" &&
      (strContains (lowerStr v.name) "balance" || strContains (lowerStr v.name) "fund" ||
       strContains (lowerStr v.name) "jackpot")) then true
  else false

/-! ## Setup gate (`contract_deployer.should_call_setup_fn`) -/

/-- Python dict lookup with default: `d.get(k, default)`. -/
def pyGet (st : List (String × PyVal)) (k : String) (d : PyVal) : PyVal :=
  match st.find? (fun p => p.1 == k) with
  | some p => p.2
  | none => d

/-- Python truthiness of the supported values. -/
def pyTruthy : PyVal → Bool
  | .int n => n != 0
  | .str s => s != ""
  | .bool b => b
  | .list l => !l.isEmpty
  | .bytes b => !b.isEmpty

/-- Python `v == (m : int)` for the supported values (`False == 0` and
`True == 1` hold in Python; non-numeric values are never equal to an int). -/
def pyEqInt : PyVal → Int → Bool
  | .int n, m => n == m
  | .bool b, m => (if b then (1 : Int) else 0) == m
  | _, _ => false

/-- `contract_deployer.should_call_setup_fn`: the only precondition rule is
for `set_percent_reduction`, gated on `bought_tokens` being truthy and
`rounds` (default 1) equalling 0. -/
def should_call_setup_fn (fn : AbiFn) (contract_state : List (String × PyVal)) : Bool :=
  let name := lowerStr fn.name
  if name == "set_percent_reduction" then
    if !(pyTruthy (pyGet contract_state "bought_tokens" (.bool false))) then false
    else if !(pyEqInt (pyGet contract_state "rounds" (.int 1)) 0) then false
    else true
  else true

/-! ## Attack Executor (`attack_executor.execute_attack_on_contracts`)

One loop iteration of the Python function performs, against one target
contract: `compile_and_deploy_attack_contract` (may raise while compiling or
deploying), `try_attack_super_generic` (catches its own transact exception and
returns a success flag, but may still raise e.g. on a balance read) and
`measure_exploit_success` (may raise on a balance read).  An iteration is
therefore summarised by one `AttackAttempt` outcome: either an exception
somewhere in the iteration, or a completed attempt with its success flag,
chosen entry point, arguments and measured balances. -/

/-- Outcome of one per-contract attack iteration. -/
inductive AttackAttempt where
  | exc (msg : String)
  | done (success : Bool) (fn : Option String) (args : List Int)
      (attackerBal contractBal : Int)
deriving DecidableEq, Repr

/-- The `AttackResult` dictionary.  `none` models an absent key or a key
bound to Python `None`. -/
structure AttackResult where
  success : Bool
  error : Option String := none
  attack_fn : Option String := none
  attack_args : Option (List Int) := none
  attacker_balance : Option Int := none
  contract_balance : Option Int := none
  target_contract : Option String := none
deriving DecidableEq, Repr

/-- The initial `result` dictionary of `execute_attack_on_contracts`. -/
def initAttackResult : AttackResult := { success := false }

/-- The `for ci in contract_group` loop of `execute_attack_on_contracts`,
with the surrounding single `try`/`except`: a raised exception stops the loop
and writes `error` into the last assigned `result` (`acc`).  `env i` is the
outcome of the iteration against the `i`-th contract.  The second component
records, in order, the contracts an iteration was started for. -/
def execAttackLoop (env : Nat → AttackAttempt) :
    List ContractInfo → Nat → AttackResult → AttackResult × List String
  | [], _, acc => (acc, [])
  | ci :: rest, i, acc =>
    match env i with
    | .exc m => ({ acc with error := some m }, [ci.contract_name])
    | .done s fn args ab cb =>
      let r : AttackResult :=
        { success := s, attack_fn := fn, attack_args := some args,
          attacker_balance := some ab, contract_balance := some cb,
          target_contract := some ci.contract_name }
      if s then (r, [ci.contract_name])
      else
        let rec' := execAttackLoop env rest (i + 1) r
        (rec'.1, ci.contract_name :: rec'.2)

/-- `attack_executor.execute_attack_on_contracts`: empty-code guard, then
code-type guard (`code_type.lower().startswith("solidity")`), then the
per-contract loop wrapped in one `try`/`except`. -/
def execute_attack_on_contracts (code : String) (contract_group : List ContractInfo)
    (env : Nat → AttackAttempt) (code_type : String) : AttackResult × List String :=
  if code == "" then
    ({ success := false, error := some "No code provided" }, [])
  else if !(startsWithL "solidity".toList (lowerStr code_type).toList) then
    ({ success := false, error := some "Only Solidity attacks are supported" }, [])
  else
    execAttackLoop env contract_group 0 initAttackResult

/-! ## Funder (`contract_deployer.auto_fund_contract_for_attack`)

The chain is summarised by the contract balance: `initBal` is the balance
read before funding, `envPay k` is the outcome of the `k`-th payable-function
funding transaction (the new contract balance, or an exception), `envDirect`
likewise for the direct transfer.  The embedding returns the `funded` flag,
the final balance read at the end, and the ordered trace of funding attempts
made. -/

/-- One entry of the funding-attempt trace. -/
inductive FundEvent where
  | viaFn (name : String)
  | direct
deriving DecidableEq, Repr

/-- The zero-argument payable functions of an ABI, in ABI order — the ones
the funding loop iterates over. -/
def zeroArgPayableFns (abi : List AbiFn) : List AbiFn :=
  abi.filter (fun f => f.typ == "function" && f.stateMutability == "payable" &&
    f.inputs.isEmpty)

/-- The payable-function funding loop: each successful transaction yields the
new contract balance; funding counts only if the balance increased over
`initBal`, in which case the loop stops.  Failed or non-increasing attempts
continue with the next payable function. -/
def fundPayLoop (initBal : Int) (envPay : Nat → Res Int) :
    List AbiFn → Nat → Int → Bool × Int × List FundEvent
  | [], _, cur => (false, cur, [])
  | f :: rest, k, cur =>
    match envPay k with
    | .exc _ =>
      let r := fundPayLoop initBal envPay rest (k + 1) cur
      (r.1, r.2.1, .viaFn f.name :: r.2.2)
    | .ok newBal =>
      if newBal - initBal > 0 then (true, newBal, [.viaFn f.name])
      else
        let r := fundPayLoop initBal envPay rest (k + 1) newBal
        (r.1, r.2.1, .viaFn f.name :: r.2.2)

/-- `contract_deployer.auto_fund_contract_for_attack`: payable zero-argument
functions first, then a direct transfer; `funded` is set only on an observed
balance increase over the initial balance. -/
def auto_fund_contract_for_attack (ci : ContractInfo) (initBal : Int)
    (envPay : Nat → Res Int) (envDirect : Res Int) : Bool × Int × List FundEvent :=
  let r := fundPayLoop initBal envPay (zeroArgPayableFns ci.abi) 0 initBal
  if r.1 then r
  else
    match envDirect with
    | .ok finalBal =>
      if finalBal - initBal > 0 then (true, finalBal, r.2.2 ++ [.direct])
      else (false, finalBal, r.2.2 ++ [.direct])
    | .exc _ => (false, r.2.1, r.2.2 ++ [.direct])

/-! ## LLM Argument Synthesizer (`contract_deployer.prompt_llm_for_args`)

The whole body of the Python function is one `try` block: the OpenAI call
(`llm`), the literal parse (`eval`, here `evalE`), and the per-element type
casting; any exception anywhere in it selects the static fallback list.
`csE` models `Web3.to_checksum_address` (raises on an invalid address) and
`icsE` models `Web3.is_checksum_address` (total). -/

/-- The fixed placeholder address used by the deployer's casting rules. -/
def PLACEHOLDER : String := "0x7E5F4552091A69125d5DfCb7b8C2659029395Bdf"

/-- A single apostrophe, used when printing Python `repr`-style strings. -/
def sqMark : String := String.mk [Char.ofNat 39]

mutual

/-- Python `repr` for the supported values (string escaping not modelled:
the pipeline only ever feeds the result to `str`). -/
def pyRepr : PyVal → String
  | .str s => sqMark ++ s ++ sqMark
  | .int n => toString n
  | .bool b => if b then "True" else "False"
  | .list l => "[" ++ pyReprItems l ++ "]"
  | .bytes bs => "b" ++ sqMark ++ String.mk (bs.map Char.ofNat) ++ sqMark

/-- Comma-joined `repr`s of list items. -/
def pyReprItems : List PyVal → String
  | [] => ""
  | [v] => pyRepr v
  | v :: rest => pyRepr v ++ ", " ++ pyReprItems rest

end

/-- Python `str()` of the supported values. -/
def pyStr : PyVal → String
  | .str s => s
  | v => pyRepr v

/-- Python `int(x)` on decimal strings: optional sign, then digits
(whitespace already allowed around it, digit-grouping underscores not
modelled). -/
def digitsToInt (l : List Char) : Res Int :=
  let core : List Char → Res Int := fun ds =>
    if ds.isEmpty || !(ds.all Char.isDigit) then .exc "invalid literal for int"
    else .ok (Int.ofNat (ds.foldl (fun a c => a * 10 + (c.toNat - 48)) 0))
  match l with
  | '-' :: rest =>
    (match core rest with | .ok n => .ok (-n) | .exc m => .exc m)
  | '+' :: rest => core rest
  | _ => core l

/-- Python `int(val)` for the supported values. -/
def pyToInt : PyVal → Res Int
  | .int n => .ok n
  | .bool b => .ok (if b then 1 else 0)
  | .str s => digitsToInt (stripL s.toList)
  | .bytes bs => digitsToInt (stripL (bs.map Char.ofNat))
  | .list _ => .exc "TypeError: int() argument"

/-- Zero-pad on the right to 32 bytes and truncate to 32
(`.ljust(32, b'\x00')[:32]`). -/
def padBytes32 (l : List Nat) : List Nat :=
  (l ++ List.replicate (32 - l.length) 0).take 32

/-- `s.encode("utf-8")` as a byte list. -/
def utf8Bytes (s : String) : List Nat := s.toUTF8.toList.map (fun b => b.toNat)

/-- The element cast of the `address[]` branch: well-shaped `0x…` strings of
length 42 go through `Web3.to_checksum_address` (which may raise, uncaught in
this branch), everything else becomes the placeholder address. -/
def castAddrList (csE : String → Res String) : List PyVal → Res (List PyVal)
  | [] => .ok []
  | a :: rest =>
    let elemR : Res String :=
      match a with
      | .str s =>
        if startsWithL "0x".toList s.toList && s.length == 42 then csE s
        else .ok PLACEHOLDER
      | _ => .ok PLACEHOLDER
    match elemR with
    | .exc m => .exc m
    | .ok e =>
      match castAddrList csE rest with
      | .exc m => .exc m
      | .ok out => .ok (PyVal.str e :: out)

/-- One iteration of the casting loop of `prompt_llm_for_args`: cast `val`
against the declared Solidity type of `inp`. -/
def castOne (csE : String → Res String) (icsE : String → Bool)
    (inp : AbiInput) (val : PyVal) : Res PyVal :=
  let typ := inp.type
  if startsWithL "uint".toList typ.toList || startsWithL "int".toList typ.toList then
    .ok (match pyToInt val with | .ok n => .int n | .exc _ => .int 1)
  else if typ == "bool" then
    .ok (match val with
      | .bool b => .bool b
      | .str s => if lowerStr s == "true" || lowerStr s == "1" then .bool true else .bool false
      | _ => .bool false)
  else if typ == "address" then
    .ok (match val with
      | .str s =>
        if icsE s then .str s
        else if startsWithL "0x".toList s.toList && s.length == 42 then
          match csE s with
          | .ok c => .str c
          | .exc _ => .str PLACEHOLDER
        else .str PLACEHOLDER
      | _ => .str PLACEHOLDER)
  else if typ == "address[]" then
    match val with
    | .list l =>
      (match castAddrList csE l with
       | .ok out => .ok (.list out)
       | .exc m => .exc m)
    | _ => .ok (.list [.str PLACEHOLDER])
  else if typ == "bytes32" then
    .ok (match val with
      | .str s =>
        if startsWithL "0x".toList s.toList && s.length == 66 then .str s
        else .bytes (padBytes32 (utf8Bytes s))
      | _ => .bytes (padBytes32 (utf8Bytes "KEY")))
  else if typ == "string" || startsWithL "bytes".toList typ.toList then
    .ok (.str (pyStr val))
  else
    .ok val

/-- `zip(args, abi_inputs)` driving the casting loop; the first raised cast
aborts the loop (and is then caught by the surrounding `try`). -/
def castArgs (csE : String → Res String) (icsE : String → Bool) :
    List PyVal → List AbiInput → Res (List PyVal)
  | [], _ => .ok []
  | _, [] => .ok []
  | v :: vs, inp :: inps =>
    match castOne csE icsE inp v with
    | .exc m => .exc m
    | .ok c =>
      match castArgs csE icsE vs inps with
      | .exc m => .exc m
      | .ok rest => .ok (c :: rest)

/-- Python iteration over the `eval` result as used by `zip`: lists iterate
their items, strings iterate 1-character strings, bytes iterate ints,
ints/bools are not iterable (a `TypeError`, caught by the `try`). -/
def pyIter : PyVal → Res (List PyVal)
  | .list l => .ok l
  | .str s => .ok (s.toList.map (fun c => PyVal.str (String.mk [c])))
  | .bytes bs => .ok (bs.map PyVal.int)
  | .int _ => .exc "TypeError: zip argument is not iterable"
  | .bool _ => .exc "TypeError: zip argument is not iterable"

/-- The `try`-block body of `prompt_llm_for_args`: LLM call, then
`args = eval(txt) if "[" in txt else []`, then the casting loop. -/
def synthTry (abi_inputs : List AbiInput) (llm : Res String)
    (evalE : String → Res PyVal) (csE : String → Res String)
    (icsE : String → Bool) : Res (List PyVal) :=
  match llm with
  | .exc m => .exc m
  | .ok txt =>
    match (if strContains txt "[" then evalE txt else .ok (.list [])) with
    | .exc m => .exc m
    | .ok v =>
      match pyIter v with
      | .exc m => .exc m
      | .ok args => castArgs csE icsE args abi_inputs

/-- The static fallback list of `prompt_llm_for_args` (its `except` branch):
one type-default per declared input. -/
def fallbackArgs (abi_inputs : List AbiInput) : List PyVal :=
  abi_inputs.map fun inp =>
    if inp.type == "address" then .str PLACEHOLDER
    else if inp.type == "address[]" then .list [.str PLACEHOLDER]
    else if inp.type == "bytes32" then .str "KEY"
    else if strContains inp.type "uint" then .int 1
    else if inp.type == "string" then .str "test"
    else if inp.type == "bool" then .bool false
    else .int 0

/-- `contract_deployer.prompt_llm_for_args`: the `try` body on success, the
static fallback on any exception. -/
def prompt_llm_for_args (abi_inputs : List AbiInput) (llm : Res String)
    (evalE : String → Res PyVal) (csE : String → Res String)
    (icsE : String → Bool) : List PyVal :=
  match synthTry abi_inputs llm evalE csE icsE with
  | .ok l => l
  | .exc _ => fallbackArgs abi_inputs

/-! ## Attack-code parser (`attack_generator.parse_attack_code_response`)

The Python regex is `r'```(?:solidity)?\n([\s\S]+?)```'`, searched
case-insensitively, leftmost match; `scanFence` implements exactly this
search on the character list (per-position attempt, optional `solidity` tag
tried first, non-greedy capture of at least one character up to the next
closing fence).  When no match is found the line-scanning fallback collects
from a `pragma solidity` line to a balanced-brace closing line. -/

/-- The backtick character. -/
def btk : Char := Char.ofNat 96

/-- Does the list start with three backticks. -/
def startsWithFence (l : List Char) : Bool := startsWithL "```".toList l

/-- Inner loop of the non-greedy capture: stop at the first closing fence. -/
def capGo (acc : List Char) : List Char → Option (List Char)
  | [] => none
  | c :: r =>
    if startsWithFence (c :: r) then some acc.reverse else capGo (c :: acc) r

/-- Non-greedy `([\s\S]+?)` up to the next ```` ``` ````: at least one
character, then the shortest extension such that a closing fence follows. -/
def captureUntilFence : List Char → Option (List Char)
  | [] => none
  | c :: rest => capGo [c] rest

/-- The branch of the fence regex that consumes a case-insensitive
`solidity` tag followed by a newline before capturing. -/
def tryTagged : List Char → Option (List Char)
  | c1 :: c2 :: c3 :: c4 :: c5 :: c6 :: c7 :: c8 :: '\n' :: u =>
    if [c1, c2, c3, c4, c5, c6, c7, c8].map Char.toLower = "solidity".toList then
      captureUntilFence u
    else none
  | _ => none

/-- The branch of the fence regex with the optional tag left empty: a newline
right after the opening fence, then the capture. -/
def tryBare : List Char → Option (List Char)
  | '\n' :: u => captureUntilFence u
  | _ => none

/-- One attempt of the fence regex at the current position:  ``` then
optionally a case-insensitive `solidity` tag, then a newline, then the
capture; the tagged alternative is tried first, as the regex backtracks. -/
def tryFenceAt : List Char → Option (List Char)
  | b1 :: b2 :: b3 :: t =>
    if b1 = btk ∧ b2 = btk ∧ b3 = btk then
      match tryTagged t with
      | some cap => some cap
      | none => tryBare t
    else none
  | _ => none

/-- Leftmost-match search of the fence regex. -/
def scanFence : List Char → Option (List Char)
  | [] => none
  | c :: t =>
    match tryFenceAt (c :: t) with
    | some cap => some cap
    | none => scanFence t

/-- `line.count(ch)`. -/
def charCount (ch : Char) (line : String) : Nat :=
  (line.toList.filter (fun c => c == ch)).length

/-- `needle`-at-the-end test (Python `str.endswith`) on character lists. -/
def endsWithL (n l : List Char) : Bool := startsWithL n.reverse l.reverse

/-- The `elif` condition of the fallback scan:
`line.strip().startswith('}') and not line.strip().endswith('{')`. -/
def closeBraceLine (line : String) : Bool :=
  let s := stripL line.toList
  startsWithL ['}'] s && !(endsWithL ['{'] s)

/-- The line-scanning fallback loop of `parse_attack_code_response`. -/
def fallbackGo (inCode : Bool) (acc : List String) : List String → List String
  | [] => acc.reverse
  | line :: rest =>
    if strContains (lowerStr line) "pragma solidity" then
      fallbackGo true (line :: acc) rest
    else if inCode && closeBraceLine line then
      if charCount '}' line ≥ charCount '{' line then (line :: acc).reverse
      else fallbackGo inCode (line :: acc) rest
    else if inCode then fallbackGo inCode (line :: acc) rest
    else fallbackGo inCode acc rest

/-- `attack_generator.parse_attack_code_response`. -/
def parse_attack_code_response (llm_response : String) : String × String :=
  match scanFence llm_response.toList with
  | some cap => (String.mk (stripL cap), "solidity")
  | none =>
    let ls := fallbackGo false [] (llm_response.splitOn "\n")
    (if ls.isEmpty then "" else String.intercalate "\n" ls, "solidity")

/-! ## Reward parser (`attack_evaluator.parse_reward_output`)

`SCORE\s*:\s*([\d.]+)` and `COMMENT\s*:\s*(.*)` searched case-insensitively
(leftmost match; both regexes are deterministic, so the search is a
per-position attempt).  A `float()` failure on the captured score aborts the
`try` block, returning the initial `(0.0, "")`. -/

/-- One attempt of the score regex at the current position. -/
def tryScoreAt (l : List Char) : Option (List Char) :=
  if startsWithL "score".toList (l.map Char.toLower) then
    match (l.drop 5).dropWhile Char.isWhitespace with
    | ':' :: r2 =>
      let ds := (r2.dropWhile Char.isWhitespace).takeWhile
        (fun c => c.isDigit || c == '.')
      if ds.isEmpty then none else some ds
    | _ => none
  else none

/-- Leftmost-match search of the score regex, returning the captured
digits-and-dots run. -/
def scanScore : List Char → Option (List Char)
  | [] => none
  | c :: t =>
    match tryScoreAt (c :: t) with
    | some ds => some ds
    | none => scanScore t

/-- One attempt of the comment regex at the current position.  `\s*` also
eats newlines; `(.*)` then captures to the end of that line. -/
def tryCommentAt (l : List Char) : Option (List Char) :=
  if startsWithL "comment".toList (l.map Char.toLower) then
    match (l.drop 7).dropWhile Char.isWhitespace with
    | ':' :: r2 =>
      some ((r2.dropWhile Char.isWhitespace).takeWhile (fun c => c != '\n'))
    | _ => none
  else none

/-- Leftmost-match search of the comment regex. -/
def scanComment : List Char → Option (List Char)
  | [] => none
  | c :: t =>
    match tryCommentAt (c :: t) with
    | some cap => some cap
    | none => scanComment t

/-- Digit-run value (empty list is 0, as for an absent fractional part). -/
def natOfDigits (l : List Char) : Nat :=
  l.foldl (fun a c => a * 10 + (c.toNat - 48)) 0

/-- Python `float()` on a `[\d.]+` capture, as an exact rational: valid iff
at most one dot and at least one digit. -/
def pyFloatOfDigits (ds : List Char) : Res Rat :=
  if ds.count '.' ≤ 1 && ds.any Char.isDigit then
    let ip := ds.takeWhile (fun c => c != '.')
    let fp := (ds.dropWhile (fun c => c != '.')).drop 1
    .ok ((natOfDigits ip : Rat) + (natOfDigits fp : Rat) / ((10 : Rat) ^ fp.length))
  else .exc "could not convert string to float"

/-- `attack_evaluator.parse_reward_output`. -/
def parse_reward_output (reward_output : String) : Rat × String :=
  let l := reward_output.toList
  let commentVal : String :=
    match scanComment l with
    | some cap => String.mk (stripL cap)
    | none => ""
  match scanScore l with
  | none => ((0 : Rat), commentVal)
  | some ds =>
    match pyFloatOfDigits ds with
    | .ok v => (v, commentVal)
    | .exc _ => ((0 : Rat), "")

/-! ## Claims -/

/-- C3: for every contract whose `contract_name` contains, case-insensitively,
one of the safe-utility substrings (erc20, standardtoken, safemath, ownable,
tokenbasic, erc20basic, math, util, interface, library, recipient),
`is_exploitable_target` returns `false`, regardless of the contract's ABI,
including when some ABI function is payable. -/
theorem C3_safe_name_rejects (ci : ContractInfo) (n : String)
    (hn : n ∈ safe_names)
    (hc : strContains (lowerStr ci.contract_name) n = true) :
    is_exploitable_target ci = false := by
  have hany : safe_names.any (fun m => strContains (lowerStr ci.contract_name) m) = true :=
    List.any_eq_true.mpr ⟨n, hn, hc⟩
  unfold is_exploitable_target
  simp [hany]

/-- Witness for C3: a payable contract named `MyStandardTokenSale` (its name
contains both the safe substring `standardtoken` and the high-value substring
`sale`) is rejected. -/
theorem C3_safe_name_rejects_witness :
    is_exploitable_target
      { contract_name := "MyStandardTokenSale",
        abi := [{ name := "deposit", typ := "function", stateMutability := "payable" }] }
      = false :=
  C3_safe_name_rejects _ "standardtoken" (by decide) (by decide)

/-- C4 counterexample: `MathDAO` contains the high-value substring `dao`,
yet `is_exploitable_target` returns `false`, because the safe-utility check
(`math`) runs first — the claim as stated is false for such names. -/
theorem C4_high_value_cex :
    "dao" ∈ important_names ∧
    strContains (lowerStr "MathDAO") "dao" = true ∧
    is_exploitable_target { contract_name := "MathDAO", abi := [] } = false := by
  refine ⟨by decide, by decide, by decide⟩

/-- C4 (amended): for every contract whose name contains, case-insensitively,
a high-value substring and contains none of the safe-utility substrings,
`is_exploitable_target` returns `true`, even if no ABI function is payable
(the ABI is not consulted at all). -/
theorem C4_high_value_accepts (ci : ContractInfo) (n : String)
    (hn : n ∈ important_names)
    (hc : strContains (lowerStr ci.contract_name) n = true)
    (hsafe : ∀ m ∈ safe_names, strContains (lowerStr ci.contract_name) m = false) :
    is_exploitable_target ci = true := by
  have h1 : safe_names.any (fun m => strContains (lowerStr ci.contract_name) m) = false := by
    rw [List.any_eq_false]
    intro m hm
    simp [hsafe m hm]
  have h2 : important_names.any (fun m => strContains (lowerStr ci.contract_name) m) = true :=
    List.any_eq_true.mpr ⟨n, hn, hc⟩
  unfold is_exploitable_target
  simp [h1, h2]

/-- Witness for C4: `SimpleWallet` with an empty (hence payable-free) ABI is
accepted. -/
theorem C4_high_value_accepts_witness :
    is_exploitable_target { contract_name := "SimpleWallet", abi := [] } = true :=
  C4_high_value_accepts _ "wallet" (by decide) (by decide) (by decide)

/-- C10: `should_call_setup_fn` returns `true` for every function whose
lowercased name is not exactly `set_percent_reduction`, regardless of the
contract state; and for `set_percent_reduction` it returns `true` exactly
when the state has a truthy `bought_tokens` entry and a `rounds` entry equal
to 0 (a missing `rounds` defaults to 1 and fails the gate). -/
theorem C10_setup_gate :
    (∀ (fn : AbiFn) (st : List (String × PyVal)),
        lowerStr fn.name ≠ "set_percent_reduction" → should_call_setup_fn fn st = true) ∧
    (∀ (fn : AbiFn) (st : List (String × PyVal)),
        lowerStr fn.name = "set_percent_reduction" →
        (should_call_setup_fn fn st = true ↔
          pyTruthy (pyGet st "bought_tokens" (.bool false)) = true ∧
          pyEqInt (pyGet st "rounds" (.int 1)) 0 = true)) := by
  constructor
  · intro fn st h
    unfold should_call_setup_fn
    simp [h]
  · intro fn st h
    unfold should_call_setup_fn
    rw [h]
    cases hb : pyTruthy (pyGet st "bought_tokens" (.bool false)) <;>
      cases hr : pyEqInt (pyGet st "rounds" (.int 1)) 0 <;>
        simp [hb, hr]

/-- Witness for C10: a `Mint` setup function passes the gate on an empty
state; `set_percent_reduction` passes exactly on the gated state. -/
theorem C10_setup_gate_witness :
    should_call_setup_fn { name := "Mint", typ := "function" } [] = true ∧
    (should_call_setup_fn { name := "set_percent_reduction", typ := "function" }
        [("bought_tokens", PyVal.bool true), ("rounds", PyVal.int 0)] = true ↔
      pyTruthy (pyGet [("bought_tokens", PyVal.bool true), ("rounds", PyVal.int 0)]
          "bought_tokens" (.bool false)) = true ∧
      pyEqInt (pyGet [("bought_tokens", PyVal.bool true), ("rounds", PyVal.int 0)]
          "rounds" (.int 1)) 0 = true) :=
  ⟨C10_setup_gate.1 _ _ (by decide), C10_setup_gate.2 _ _ (by decide)⟩

/-- C9: the argument-casting step, given an ABI input of declared type
`address` and a string value that `Web3.is_checksum_address` accepts,
returns that same string unchanged. -/
theorem C9_checksum_idempotent (csE : String → Res String) (icsE : String → Bool)
    (inp : AbiInput) (a : String)
    (ht : inp.type = "address") (ha : icsE a = true) :
    castOne csE icsE inp (.str a) = .ok (.str a) := by
  unfold castOne
  rw [ht]
  simp [ha]
  intro h
  exact absurd h (by decide)

/-- Witness for C9: a concrete checksummed address is returned unchanged. -/
theorem C9_checksum_idempotent_witness :
    castOne (fun s => .ok s) (fun s => s == "0x5B38Da6a701c568545dCfcB03FcB875f56beddC4")
      { name := "owner", type := "address" }
      (.str "0x5B38Da6a701c568545dCfcB03FcB875f56beddC4")
      = .ok (.str "0x5B38Da6a701c568545dCfcB03FcB875f56beddC4") :=
  C9_checksum_idempotent _ _ _ _ rfl (by decide)

/-- C5 counterexample: (1) with an empty code string and a non-Solidity
`code_type`, the empty-code guard fires first and the result's error is
`"No code provided"`, not the unsupported-type error the claim requires for
every code string; (2) a `code_type` of `"SolidityX"` — not Solidity — is
accepted by the `startswith` check and the attack is executed rather than
rejected. -/
theorem C5_non_solidity_cex :
    (execute_attack_on_contracts "" [] (fun _ => .exc "unused") "python").1
      = { success := false, error := some "No code provided" } ∧
    ((execute_attack_on_contracts "contract X" [{ contract_name := "B" }]
        (fun _ => .done true (some "attack") [] 5 0) "SolidityX").1.success = true ∧
      (execute_attack_on_contracts "contract X" [{ contract_name := "B" }]
        (fun _ => .done true (some "attack") [] 5 0) "SolidityX").2 = ["B"]) := by
  refine ⟨by decide, by decide, by decide⟩

/-- C5 (amended): for every non-empty code string and every `code_type`
whose lowercase does not start with `"solidity"`, the executor runs nothing
(no contract iteration is started) and returns exactly the unsupported-type
error result with `success = false`. -/
theorem C5_non_solidity_rejected (code ct : String) (group : List ContractInfo)
    (env : Nat → AttackAttempt) (hc : code ≠ "")
    (ht : startsWithL "solidity".toList (lowerStr ct).toList = false) :
    execute_attack_on_contracts code group env ct
      = ({ success := false, error := some "Only Solidity attacks are supported" }, []) := by
  unfold execute_attack_on_contracts
  have ht' : startsWithL ['s', 'o', 'l', 'i', 'd', 'i', 't', 'y'] (lowerStr ct).data = false := ht
  simp [hc, ht']

/-- Witness for C5: Python attack code with `code_type = "python"` is
rejected without executing anything. -/
theorem C5_non_solidity_rejected_witness :
    execute_attack_on_contracts "print(1)" [{ contract_name := "A" }]
        (fun _ => .exc "unused") "python"
      = ({ success := false, error := some "Only Solidity attacks are supported" }, []) :=
  C5_non_solidity_rejected _ _ _ _ (by decide) (by decide)

/-- Unfolding: the loop on an empty group returns the accumulator. -/
theorem execAttackLoop_nil (env : Nat → AttackAttempt) (i : Nat) (acc : AttackResult) :
    execAttackLoop env [] i acc = (acc, []) := rfl

/-- Unfolding: a raising iteration folds the message into the accumulator's
`error` and stops. -/
theorem execAttackLoop_cons_exc (env : Nat → AttackAttempt) (i : Nat) (acc : AttackResult)
    (ci : ContractInfo) (rest : List ContractInfo) (m : String) (h : env i = .exc m) :
    execAttackLoop env (ci :: rest) i acc
      = ({ acc with error := some m }, [ci.contract_name]) := by
  simp [execAttackLoop, h]

/-- Unfolding: a successful iteration stops with its own result. -/
theorem execAttackLoop_cons_done_true (env : Nat → AttackAttempt) (i : Nat)
    (acc : AttackResult) (ci : ContractInfo) (rest : List ContractInfo)
    (fn : Option String) (args : List Int) (ab cb : Int)
    (h : env i = .done true fn args ab cb) :
    execAttackLoop env (ci :: rest) i acc
      = ({ success := true, attack_fn := fn, attack_args := some args,
           attacker_balance := some ab, contract_balance := some cb,
           target_contract := some ci.contract_name }, [ci.contract_name]) := by
  simp [execAttackLoop, h]

/-- Unfolding: a failed (non-raising) iteration records its result and
continues with the next contract. -/
theorem execAttackLoop_cons_done_false (env : Nat → AttackAttempt) (i : Nat)
    (acc : AttackResult) (ci : ContractInfo) (rest : List ContractInfo)
    (fn : Option String) (args : List Int) (ab cb : Int)
    (h : env i = .done false fn args ab cb) :
    execAttackLoop env (ci :: rest) i acc
      = ((execAttackLoop env rest (i + 1)
            { success := false, attack_fn := fn, attack_args := some args,
              attacker_balance := some ab, contract_balance := some cb,
              target_contract := some ci.contract_name }).1,
         ci.contract_name ::
           (execAttackLoop env rest (i + 1)
              { success := false, attack_fn := fn, attack_args := some args,
                attacker_balance := some ab, contract_balance := some cb,
                target_contract := some ci.contract_name }).2) := by
  simp [execAttackLoop, h]

/-- If the loop result carries an error message, the loop was entered with a
failed accumulator, some reached iteration raised exactly that message, and
the returned success flag is `false`. -/
theorem execAttackLoop_error_spec (env : Nat → AttackAttempt) :
    ∀ (group : List ContractInfo) (i : Nat) (acc : AttackResult),
      acc.success = false → acc.error = none → ∀ m,
      (execAttackLoop env group i acc).1.error = some m →
      (execAttackLoop env group i acc).1.success = false ∧
      ∃ j, j < group.length ∧ env (i + j) = AttackAttempt.exc m := by
  intro group
  induction group with
  | nil =>
    intro i acc h1 h2 m hm
    rw [execAttackLoop_nil] at hm
    simp [h2] at hm
  | cons ci rest ih =>
    intro i acc h1 h2 m hm
    cases henv : env i with
    | exc msg =>
      rw [execAttackLoop_cons_exc env i acc ci rest msg henv] at hm ⊢
      simp at hm ⊢
      subst hm
      exact ⟨h1, 0, by simp, by simpa using henv⟩
    | done s fn args ab cb =>
      cases s with
      | true =>
        rw [execAttackLoop_cons_done_true env i acc ci rest fn args ab cb henv] at hm
        simp at hm
      | false =>
        rw [execAttackLoop_cons_done_false env i acc ci rest fn args ab cb henv] at hm ⊢
        obtain ⟨hs, j, hj, he⟩ := ih (i + 1) _ rfl rfl m (by simpa using hm)
        refine ⟨by simpa using hs, j + 1, by simpa using Nat.succ_lt_succ hj, ?_⟩
        rw [show i + (j + 1) = i + 1 + j by omega]
        exact he

/-- If no reachable iteration raises, the loop result's `error` stays absent. -/
theorem execAttackLoop_noexc_spec (env : Nat → AttackAttempt) :
    ∀ (group : List ContractInfo) (i : Nat) (acc : AttackResult),
      acc.error = none →
      (∀ j, j < group.length → ∀ m, env (i + j) ≠ AttackAttempt.exc m) →
      (execAttackLoop env group i acc).1.error = none := by
  intro group
  induction group with
  | nil =>
    intro i acc h2 _
    rw [execAttackLoop_nil]
    exact h2
  | cons ci rest ih =>
    intro i acc h2 hne
    cases henv : env i with
    | exc msg =>
      exact absurd (by simpa using henv) (hne 0 (by simp) msg)
    | done s fn args ab cb =>
      cases s with
      | true =>
        rw [execAttackLoop_cons_done_true env i acc ci rest fn args ab cb henv]
      | false =>
        rw [execAttackLoop_cons_done_false env i acc ci rest fn args ab cb henv]
        exact ih (i + 1)
          { success := false, attack_fn := fn, attack_args := some args,
            attacker_balance := some ab, contract_balance := some cb,
            target_contract := some ci.contract_name } rfl (fun j hj m => by
          have := hne (j + 1) (by simpa using Nat.succ_lt_succ hj) m
          rw [show i + (j + 1) = i + 1 + j by omega] at this
          exact this)

/-- If every iteration completes without raising and without success, the
loop visits every contract of the group (no abort) and reports failure. -/
theorem execAttackLoop_allfail_spec (env : Nat → AttackAttempt) :
    ∀ (group : List ContractInfo) (i : Nat) (acc : AttackResult),
      acc.success = false →
      (∀ j, j < group.length →
        ∃ fn args ab cb, env (i + j) = AttackAttempt.done false fn args ab cb) →
      (execAttackLoop env group i acc).1.success = false ∧
      (execAttackLoop env group i acc).2 = group.map (fun ci => ci.contract_name) := by
  intro group
  induction group with
  | nil =>
    intro i acc h1 _
    rw [execAttackLoop_nil]
    exact ⟨h1, rfl⟩
  | cons ci rest ih =>
    intro i acc h1 hall
    obtain ⟨fn, args, ab, cb, he⟩ := hall 0 (by simp)
    rw [show i + 0 = i by omega] at he
    rw [execAttackLoop_cons_done_false env i acc ci rest fn args ab cb he]
    have hrec := ih (i + 1)
      { success := false, attack_fn := fn, attack_args := some args,
        attacker_balance := some ab, contract_balance := some cb,
        target_contract := some ci.contract_name } rfl (fun j hj => by
      have := hall (j + 1) (by simpa using Nat.succ_lt_succ hj)
      rw [show i + (j + 1) = i + 1 + j by omega] at this
      exact this)
    exact ⟨by simpa using hrec.1, by simp [hrec.2]⟩

/-- C1 counterexample: against a group of two contracts where the iteration
for the first raises (e.g. the attacker source fails to compile or deploy
against it) and the attack on the second would succeed, the executor stops
after the first contract — the exception is folded into `error` and
`success = false`, but the second contract is never attempted (trace
`["A"]`), even though the same attack against the second contract alone
succeeds.  This falsifies the claim that a failure against one contract does
not abort attempts against the remaining contracts. -/
theorem C1_attack_loop_abort_cex :
    execute_attack_on_contracts "contract Z" [{ contract_name := "A" }, { contract_name := "B" }]
        (fun i => if i = 0 then .exc "compile boom" else .done true (some "attack") [] 5 0)
        "solidity"
      = ({ success := false, error := some "compile boom" }, ["A"]) ∧
    (execute_attack_on_contracts "contract Z" [{ contract_name := "B" }]
        (fun _ => .done true (some "attack") [] 5 0) "solidity").1.success = true := by
  refine ⟨by decide, by decide⟩

/-- C1 (amended): with non-empty Solidity code, `execute_attack_on_contracts`
never propagates an exception; the first exception raised during a contract
iteration is caught once at group level and folded into the result's `error`
with `success = false`, ending the loop (remaining contracts are not
attempted).  Non-exception failed attempts do continue: if every iteration
completes without raising and without success, no error is reported and
every contract of the group is attempted. -/
theorem C1_attack_loop_exception_folding (code ct : String) (group : List ContractInfo)
    (env : Nat → AttackAttempt) (hc : code ≠ "")
    (ht : startsWithL "solidity".toList (lowerStr ct).toList = true) :
    (∀ m, (execute_attack_on_contracts code group env ct).1.error = some m →
        (execute_attack_on_contracts code group env ct).1.success = false ∧
        ∃ j, j < group.length ∧ env j = AttackAttempt.exc m) ∧
    ((∀ j, j < group.length → ∀ m, env j ≠ AttackAttempt.exc m) →
        (execute_attack_on_contracts code group env ct).1.error = none) ∧
    ((∀ j, j < group.length →
        ∃ fn args ab cb, env j = AttackAttempt.done false fn args ab cb) →
        (execute_attack_on_contracts code group env ct).1.success = false ∧
        (execute_attack_on_contracts code group env ct).2
          = group.map (fun ci => ci.contract_name)) := by
  have hred : execute_attack_on_contracts code group env ct
      = execAttackLoop env group 0 initAttackResult := by
    unfold execute_attack_on_contracts
    have ht' : startsWithL ['s', 'o', 'l', 'i', 'd', 'i', 't', 'y'] (lowerStr ct).data = true := ht
    simp [hc, ht']
  rw [hred]
  refine ⟨?_, ?_, ?_⟩
  · intro m hm
    obtain ⟨hs, j, hj, he⟩ :=
      execAttackLoop_error_spec env group 0 initAttackResult rfl rfl m hm
    exact ⟨hs, j, hj, by simpa using he⟩
  · intro hne
    exact execAttackLoop_noexc_spec env group 0 initAttackResult rfl
      (fun j hj m => by simpa using hne j hj m)
  · intro hall
    exact execAttackLoop_allfail_spec env group 0 initAttackResult rfl
      (fun j hj => by simpa using hall j hj)

/-- Witness for C1: two failed (non-raising) attempts in a row — both
contracts are attempted, no error is recorded. -/
theorem C1_attack_loop_exception_folding_witness :
    (execute_attack_on_contracts "contract Z" [{ contract_name := "A" }, { contract_name := "B" }]
        (fun _ => .done false none [] 0 0) "solidity").1.success = false ∧
    (execute_attack_on_contracts "contract Z" [{ contract_name := "A" }, { contract_name := "B" }]
        (fun _ => .done false none [] 0 0) "solidity").2 = ["A", "B"] :=
  (C1_attack_loop_exception_folding "contract Z" "solidity"
      [{ contract_name := "A" }, { contract_name := "B" }]
      (fun _ => .done false none [] 0 0) (by decide) (by decide)).2.2
    (fun _ _ => ⟨none, [], 0, 0, rfl⟩)

/-- C2 counterexample: for a single declared `bytes32` input and a raising
LLM call, the fallback list the synthesizer returns holds the Python string
`"KEY"`, not a bytes value — the natural `"KEY"` bytes reading (the
zero-padded 32-byte encoding used on the casting path) differs from what the
fallback actually contains, so the claim's stated `bytes32` default is false
on the code. -/
theorem C2_bytes32_fallback_cex :
    prompt_llm_for_args [{ name := "tag", type := "bytes32" }] (.exc "timeout")
        (fun _ => .ok (.list [])) (fun s => .ok s) (fun _ => false)
      = [PyVal.str "KEY"] ∧
    [PyVal.str "KEY"] ≠ [PyVal.bytes (padBytes32 (utf8Bytes "KEY"))] := by
  refine ⟨rfl, ?_⟩
  intro h
  simp at h

/-- C2 (amended): `prompt_llm_for_args` never raises (it is a total function
here by construction, mirroring the all-enclosing `try`), and any exception
during the LLM call, the literal parse, or the casting yields the static
fallback list: exactly one type-default per declared input — the placeholder
address for `address`, a one-element placeholder list for `address[]`, the
literal string `"KEY"` (not a bytes value) for `bytes32`, `1` for uint
types, `"test"` for `string`, `False` for `bool`, `0` otherwise. -/
theorem C2_synth_fallback_total (abi_inputs : List AbiInput) (llm : Res String)
    (evalE : String → Res PyVal) (csE : String → Res String) (icsE : String → Bool) :
    (∀ m, llm = .exc m →
        prompt_llm_for_args abi_inputs llm evalE csE icsE = fallbackArgs abi_inputs) ∧
    (∀ t m, llm = .ok t → strContains t "[" = true → evalE t = .exc m →
        prompt_llm_for_args abi_inputs llm evalE csE icsE = fallbackArgs abi_inputs) ∧
    (∀ m, synthTry abi_inputs llm evalE csE icsE = .exc m →
        prompt_llm_for_args abi_inputs llm evalE csE icsE = fallbackArgs abi_inputs) ∧
    fallbackArgs abi_inputs = abi_inputs.map (fun inp =>
      if inp.type == "address" then PyVal.str "0x7E5F4552091A69125d5DfCb7b8C2659029395Bdf"
      else if inp.type == "address[]" then
        PyVal.list [PyVal.str "0x7E5F4552091A69125d5DfCb7b8C2659029395Bdf"]
      else if inp.type == "bytes32" then PyVal.str "KEY"
      else if strContains inp.type "uint" then PyVal.int 1
      else if inp.type == "string" then PyVal.str "test"
      else if inp.type == "bool" then PyVal.bool false
      else PyVal.int 0) ∧
    (fallbackArgs abi_inputs).length = abi_inputs.length := by
  refine ⟨?_, ?_, ?_, rfl, by simp [fallbackArgs]⟩
  · intro m h
    subst h
    rfl
  · intro t m h hb he
    subst h
    unfold prompt_llm_for_args synthTry
    simp [hb, he]
  · intro m h
    unfold prompt_llm_for_args
    rw [h]

/-- Witness for C2: a failing LLM call yields the static defaults for a
seven-input constructor covering every fallback rule. -/
theorem C2_synth_fallback_total_witness :
    prompt_llm_for_args
        [{ name := "owner", type := "address" }, { name := "amount", type := "uint256" },
         { name := "keys", type := "address[]" }, { name := "tag", type := "bytes32" },
         { name := "label", type := "string" }, { name := "flag", type := "bool" },
         { name := "delta", type := "int8" }]
        (.exc "ConnectionError") (fun _ => .ok (.list [])) (fun s => .ok s) (fun _ => false)
      = [PyVal.str "0x7E5F4552091A69125d5DfCb7b8C2659029395Bdf", PyVal.int 1,
         PyVal.list [PyVal.str "0x7E5F4552091A69125d5DfCb7b8C2659029395Bdf"], PyVal.str "KEY",
         PyVal.str "test", PyVal.bool false, PyVal.int 0] := by
  have h := (C2_synth_fallback_total
      [{ name := "owner", type := "address" }, { name := "amount", type := "uint256" },
       { name := "keys", type := "address[]" }, { name := "tag", type := "bytes32" },
       { name := "label", type := "string" }, { name := "flag", type := "bool" },
       { name := "delta", type := "int8" }]
      (.exc "ConnectionError") (fun _ => .ok (.list [])) (fun s => .ok s) (fun _ => false)).1
      "ConnectionError" rfl
  rw [h]
  rfl

/-- Unfolding: the funding loop on an exhausted function list reports not
funded, with the current balance. -/
theorem fundPayLoop_nil (initBal : Int) (envPay : Nat → Res Int) (k : Nat) (cur : Int) :
    fundPayLoop initBal envPay [] k cur = (false, cur, []) := rfl

/-- Unfolding: a raising funding transaction is skipped. -/
theorem fundPayLoop_cons_exc (initBal : Int) (envPay : Nat → Res Int)
    (f : AbiFn) (rest : List AbiFn) (k : Nat) (cur : Int) (m : String)
    (h : envPay k = .exc m) :
    fundPayLoop initBal envPay (f :: rest) k cur
      = ((fundPayLoop initBal envPay rest (k + 1) cur).1,
         (fundPayLoop initBal envPay rest (k + 1) cur).2.1,
         .viaFn f.name :: (fundPayLoop initBal envPay rest (k + 1) cur).2.2) := by
  simp [fundPayLoop, h]

/-- Unfolding: a funding transaction that increases the balance over the
initial one stops the loop as funded. -/
theorem fundPayLoop_cons_ok_pos (initBal : Int) (envPay : Nat → Res Int)
    (f : AbiFn) (rest : List AbiFn) (k : Nat) (cur nb : Int)
    (h : envPay k = .ok nb) (hpos : nb - initBal > 0) :
    fundPayLoop initBal envPay (f :: rest) k cur = (true, nb, [.viaFn f.name]) := by
  simp [fundPayLoop, h, hpos]

/-- Unfolding: a funding transaction that does not increase the balance
continues with the next payable function. -/
theorem fundPayLoop_cons_ok_nonpos (initBal : Int) (envPay : Nat → Res Int)
    (f : AbiFn) (rest : List AbiFn) (k : Nat) (cur nb : Int)
    (h : envPay k = .ok nb) (hnp : ¬ nb - initBal > 0) :
    fundPayLoop initBal envPay (f :: rest) k cur
      = ((fundPayLoop initBal envPay rest (k + 1) nb).1,
         (fundPayLoop initBal envPay rest (k + 1) nb).2.1,
         .viaFn f.name :: (fundPayLoop initBal envPay rest (k + 1) nb).2.2) := by
  simp [fundPayLoop, h, hnp]

/-- The funding loop reports funded only when the balance it stopped at
exceeds the initial balance. -/
theorem fundPayLoop_funded_spec (initBal : Int) (envPay : Nat → Res Int) :
    ∀ (fns : List AbiFn) (k : Nat) (cur : Int),
      (fundPayLoop initBal envPay fns k cur).1 = true →
      (fundPayLoop initBal envPay fns k cur).2.1 > initBal := by
  intro fns
  induction fns with
  | nil =>
    intro k cur h
    rw [fundPayLoop_nil] at h
    cases h
  | cons f rest ih =>
    intro k cur h
    cases he : envPay k with
    | exc m =>
      rw [fundPayLoop_cons_exc initBal envPay f rest k cur m he] at h ⊢
      exact ih (k + 1) cur h
    | ok nb =>
      by_cases hpos : nb - initBal > 0
      · rw [fundPayLoop_cons_ok_pos initBal envPay f rest k cur nb he hpos]
        dsimp only
        omega
      · rw [fundPayLoop_cons_ok_nonpos initBal envPay f rest k cur nb he hpos] at h ⊢
        exact ih (k + 1) nb h

/-- The funding loop's trace never contains the direct-transfer event. -/
theorem fundPayLoop_trace_noDirect (initBal : Int) (envPay : Nat → Res Int) :
    ∀ (fns : List AbiFn) (k : Nat) (cur : Int),
      FundEvent.direct ∉ (fundPayLoop initBal envPay fns k cur).2.2 := by
  intro fns
  induction fns with
  | nil =>
    intro k cur
    rw [fundPayLoop_nil]
    simp
  | cons f rest ih =>
    intro k cur
    cases he : envPay k with
    | exc m =>
      rw [fundPayLoop_cons_exc initBal envPay f rest k cur m he]
      simp
      exact fun h => absurd h (ih (k + 1) cur)
    | ok nb =>
      by_cases hpos : nb - initBal > 0
      · rw [fundPayLoop_cons_ok_pos initBal envPay f rest k cur nb he hpos]
        simp
      · rw [fundPayLoop_cons_ok_nonpos initBal envPay f rest k cur nb he hpos]
        simp
        exact fun h => absurd h (ih (k + 1) nb)

/-- If the funding loop did not fund, it attempted every payable function,
in ABI order. -/
theorem fundPayLoop_unfunded_trace (initBal : Int) (envPay : Nat → Res Int) :
    ∀ (fns : List AbiFn) (k : Nat) (cur : Int),
      (fundPayLoop initBal envPay fns k cur).1 = false →
      (fundPayLoop initBal envPay fns k cur).2.2
        = fns.map (fun f => FundEvent.viaFn f.name) := by
  intro fns
  induction fns with
  | nil =>
    intro k cur _
    rw [fundPayLoop_nil]
    rfl
  | cons f rest ih =>
    intro k cur h
    cases he : envPay k with
    | exc m =>
      rw [fundPayLoop_cons_exc initBal envPay f rest k cur m he] at h ⊢
      simp at h ⊢
      exact ih (k + 1) cur h
    | ok nb =>
      by_cases hpos : nb - initBal > 0
      · rw [fundPayLoop_cons_ok_pos initBal envPay f rest k cur nb he hpos] at h
        cases h
      · rw [fundPayLoop_cons_ok_nonpos initBal envPay f rest k cur nb he hpos] at h ⊢
        simp at h ⊢
        exact ih (k + 1) nb h

/-- C6: `auto_fund_contract_for_attack` first attempts the zero-argument
payable ABI functions, then falls back to one direct value transfer (the
direct transfer appears in the attempt trace only after every payable
candidate was attempted), and it reports `funded = true` only when the
contract balance it observed exceeds the balance read before funding. -/
theorem C6_fund_verified (ci : ContractInfo) (initBal : Int)
    (envPay : Nat → Res Int) (envDirect : Res Int) :
    ((auto_fund_contract_for_attack ci initBal envPay envDirect).1 = true →
      (auto_fund_contract_for_attack ci initBal envPay envDirect).2.1 > initBal) ∧
    (FundEvent.direct ∈ (auto_fund_contract_for_attack ci initBal envPay envDirect).2.2 →
      (auto_fund_contract_for_attack ci initBal envPay envDirect).2.2
        = (zeroArgPayableFns ci.abi).map (fun f => FundEvent.viaFn f.name)
            ++ [FundEvent.direct]) := by
  have hfund := fundPayLoop_funded_spec initBal envPay (zeroArgPayableFns ci.abi) 0 initBal
  have hnd := fundPayLoop_trace_noDirect initBal envPay (zeroArgPayableFns ci.abi) 0 initBal
  have htr := fundPayLoop_unfunded_trace initBal envPay (zeroArgPayableFns ci.abi) 0 initBal
  unfold auto_fund_contract_for_attack
  by_cases h1 : (fundPayLoop initBal envPay (zeroArgPayableFns ci.abi) 0 initBal).1 = true
  · rw [if_pos h1]
    exact ⟨fun _ => hfund h1, fun hd => absurd hd hnd⟩
  · rw [if_neg h1]
    have h1' : (fundPayLoop initBal envPay (zeroArgPayableFns ci.abi) 0 initBal).1 = false := by
      simpa using h1
    cases hd : envDirect with
    | ok fb =>
      dsimp only
      by_cases hp : fb - initBal > 0
      · rw [if_pos hp]
        dsimp only
        exact ⟨fun _ => (by omega), fun _ => (by rw [htr h1'])⟩
      · rw [if_neg hp]
        dsimp only
        exact ⟨fun hcontr => (by cases hcontr), fun _ => (by rw [htr h1'])⟩
    | exc m =>
      dsimp only
      exact ⟨fun hcontr => (by cases hcontr), fun _ => (by rw [htr h1'])⟩

/-- Witness for C6: one payable candidate whose transaction reverts, then a
successful direct transfer raising the balance from 0 to 5. -/
theorem C6_fund_verified_witness :
    (auto_fund_contract_for_attack
        { contract_name := "C",
          abi := [{ name := "deposit", typ := "function", stateMutability := "payable" }] }
        0 (fun _ => .exc "revert") (.ok 5)).2.1 > 0 ∧
    (auto_fund_contract_for_attack
        { contract_name := "C",
          abi := [{ name := "deposit", typ := "function", stateMutability := "payable" }] }
        0 (fun _ => .exc "revert") (.ok 5)).2.2
      = [FundEvent.viaFn "deposit", FundEvent.direct] :=
  ⟨(C6_fund_verified
      { contract_name := "C",
        abi := [{ name := "deposit", typ := "function", stateMutability := "payable" }] }
      0 (fun _ => .exc "revert") (.ok 5)).1 (by decide),
   (C6_fund_verified
      { contract_name := "C",
        abi := [{ name := "deposit", typ := "function", stateMutability := "payable" }] }
      0 (fun _ => .exc "revert") (.ok 5)).2 (by decide)⟩

/-- The opening-fence characters. -/
theorem fence_chars : "```".toList = [btk, btk, btk] := by decide

/-- A list not starting with a backtick does not start with a fence. -/
theorem startsWithFence_cons_ne (c : Char) (t : List Char) (h : c ≠ btk) :
    startsWithFence (c :: t) = false := by
  unfold startsWithFence
  rw [fence_chars]
  have hbc : (btk == c) = false := by
    simp [beq_eq_false_iff_ne]
    exact fun hh => h hh.symm
  simp [startsWithL, hbc]

/-- The fence regex cannot match at a position not holding a backtick. -/
theorem tryFenceAt_cons_ne (c : Char) (rest : List Char) (h : c ≠ btk) :
    tryFenceAt (c :: rest) = none := by
  match rest with
  | [] => rfl
  | [x] => rfl
  | x :: y :: ys =>
    show (if c = btk ∧ x = btk ∧ y = btk then _ else none) = none
    exact if_neg (fun hcond => h hcond.1)

/-- Scanning skips over a backtick-free prefix. -/
theorem scanFence_append_skip (p : List Char) (hp : ∀ c ∈ p, c ≠ btk)
    (rest : List Char) : scanFence (p ++ rest) = scanFence rest := by
  induction p with
  | nil => rfl
  | cons c t ih =>
    have hc : c ≠ btk := hp c (List.mem_cons_self c t)
    show scanFence (c :: (t ++ rest)) = scanFence rest
    rw [show scanFence (c :: (t ++ rest))
        = (match tryFenceAt (c :: (t ++ rest)) with
           | some cap => some cap
           | none => scanFence (t ++ rest)) from rfl]
    rw [tryFenceAt_cons_ne c (t ++ rest) hc]
    exact ih (fun x hx => hp x (List.mem_cons_of_mem c hx))

/-- The capture loop walks through backtick-free text and stops at the next
closing fence. -/
theorem capGo_through (rest : List Char) :
    ∀ (s : List Char), (∀ c ∈ s, c ≠ btk) → ∀ acc : List Char,
      capGo acc (s ++ btk :: btk :: btk :: rest) = some (acc.reverse ++ s) := by
  intro s
  induction s with
  | nil =>
    intro _ acc
    have hf : startsWithFence (btk :: btk :: btk :: rest) = true := by
      show startsWithL "```".toList (btk :: btk :: btk :: rest) = true
      rw [fence_chars]
      simp [startsWithL]
    show capGo acc (btk :: btk :: btk :: rest) = some (acc.reverse ++ [])
    rw [show capGo acc (btk :: btk :: btk :: rest)
        = (if startsWithFence (btk :: btk :: btk :: rest) then some acc.reverse
           else capGo (btk :: acc) (btk :: btk :: rest)) from rfl]
    rw [hf]
    simp
  | cons x xs ih =>
    intro hs acc
    have hx : x ≠ btk := hs x (List.mem_cons_self x xs)
    show capGo acc (x :: (xs ++ btk :: btk :: btk :: rest)) = some (acc.reverse ++ x :: xs)
    rw [show capGo acc (x :: (xs ++ btk :: btk :: btk :: rest))
        = (if startsWithFence (x :: (xs ++ btk :: btk :: btk :: rest))
           then some acc.reverse
           else capGo (x :: acc) (xs ++ btk :: btk :: btk :: rest)) from rfl]
    rw [startsWithFence_cons_ne x _ hx]
    simp only [Bool.false_eq_true, if_false]
    rw [ih (fun c hc => hs c (List.mem_cons_of_mem x hc)) (x :: acc)]
    simp

/-- The non-greedy capture of a backtick-free, nonempty block body. -/
theorem captureUntilFence_body (body rest : List Char) (hb : body ≠ [])
    (hnb : ∀ c ∈ body, c ≠ btk) :
    captureUntilFence (body ++ btk :: btk :: btk :: rest) = some body := by
  cases body with
  | nil => exact absurd rfl hb
  | cons b bs =>
    show captureUntilFence (b :: (bs ++ btk :: btk :: btk :: rest)) = some (b :: bs)
    rw [show captureUntilFence (b :: (bs ++ btk :: btk :: btk :: rest))
        = capGo [b] (bs ++ btk :: btk :: btk :: rest) from rfl]
    rw [capGo_through rest bs (fun c hc => hnb c (List.mem_cons_of_mem b hc)) [b]]
    simp

/-- The fence regex at an opening ```` ```solidity ```` fence captures
exactly the body up to the closing fence. -/
theorem tryFenceAt_solidity (body s : List Char) (hb : body ≠ [])
    (hnb : ∀ c ∈ body, c ≠ btk) :
    tryFenceAt (btk :: btk :: btk :: 's' :: 'o' :: 'l' :: 'i' :: 'd' :: 'i' :: 't' :: 'y'
        :: '\n' :: (body ++ btk :: btk :: btk :: s)) = some body := by
  have htag : tryTagged ('s' :: 'o' :: 'l' :: 'i' :: 'd' :: 'i' :: 't' :: 'y'
      :: '\n' :: (body ++ btk :: btk :: btk :: s)) = some body := by
    rw [show tryTagged ('s' :: 'o' :: 'l' :: 'i' :: 'd' :: 'i' :: 't' :: 'y'
          :: '\n' :: (body ++ btk :: btk :: btk :: s))
        = (if ['s', 'o', 'l', 'i', 'd', 'i', 't', 'y'].map Char.toLower = "solidity".toList
           then captureUntilFence (body ++ btk :: btk :: btk :: s)
           else none) from rfl]
    rw [if_pos (by decide)]
    exact captureUntilFence_body body s hb hnb
  rw [show tryFenceAt (btk :: btk :: btk :: 's' :: 'o' :: 'l' :: 'i' :: 'd' :: 'i' :: 't' :: 'y'
        :: '\n' :: (body ++ btk :: btk :: btk :: s))
      = (if btk = btk ∧ btk = btk ∧ btk = btk then
          (match tryTagged ('s' :: 'o' :: 'l' :: 'i' :: 'd' :: 'i' :: 't' :: 'y'
              :: '\n' :: (body ++ btk :: btk :: btk :: s)) with
           | some cap => some cap
           | none => tryBare ('s' :: 'o' :: 'l' :: 'i' :: 'd' :: 'i' :: 't' :: 'y'
              :: '\n' :: (body ++ btk :: btk :: btk :: s)))
         else none) from rfl]
  rw [if_pos ⟨rfl, rfl, rfl⟩, htag]

/-- C7: a response consisting of a single complete ```` ```solidity ````
fenced block (no backticks in the preceding text or in the block body, body
nonempty) parses to exactly the block's contents stripped of surrounding
whitespace, with `code_type = "solidity"`. -/
theorem C7_fenced_block_extracted (p body s : List Char)
    (hp : ∀ c ∈ p, c ≠ btk) (hb : body ≠ []) (hnb : ∀ c ∈ body, c ≠ btk) :
    parse_attack_code_response (String.mk
        (p ++ btk :: btk :: btk :: 's' :: 'o' :: 'l' :: 'i' :: 'd' :: 'i' :: 't' :: 'y'
          :: '\n' :: (body ++ btk :: btk :: btk :: s)))
      = (String.mk (stripL body), "solidity") := by
  unfold parse_attack_code_response
  rw [show (String.mk
      (p ++ btk :: btk :: btk :: 's' :: 'o' :: 'l' :: 'i' :: 'd' :: 'i' :: 't' :: 'y'
        :: '\n' :: (body ++ btk :: btk :: btk :: s))).toList
      = p ++ btk :: btk :: btk :: 's' :: 'o' :: 'l' :: 'i' :: 'd' :: 'i' :: 't' :: 'y'
        :: '\n' :: (body ++ btk :: btk :: btk :: s) from rfl]
  rw [scanFence_append_skip p hp _]
  rw [show scanFence (btk :: btk :: btk :: 's' :: 'o' :: 'l' :: 'i' :: 'd' :: 'i' :: 't' :: 'y'
        :: '\n' :: (body ++ btk :: btk :: btk :: s))
      = (match tryFenceAt (btk :: btk :: btk :: 's' :: 'o' :: 'l' :: 'i' :: 'd' :: 'i' :: 't'
            :: 'y' :: '\n' :: (body ++ btk :: btk :: btk :: s)) with
         | some cap => some cap
         | none => scanFence ('`' :: btk :: 's' :: 'o' :: 'l' :: 'i' :: 'd' :: 'i' :: 't' :: 'y'
            :: '\n' :: (body ++ btk :: btk :: btk :: s))) from rfl]
  rw [tryFenceAt_solidity body s hb hnb]

/-- Witness for C7: a concrete single-block response. -/
theorem C7_fenced_block_extracted_witness :
    parse_attack_code_response (String.mk
        ("Sure:\n".toList ++ btk :: btk :: btk :: 's' :: 'o' :: 'l' :: 'i' :: 'd' :: 'i' :: 't'
          :: 'y' :: '\n' :: ("pragma solidity 0.8.0; contract A".toList
            ++ btk :: btk :: btk :: " done".toList)))
      = ("pragma solidity 0.8.0; contract A", "solidity") := by
  rw [C7_fenced_block_extracted "Sure:\n".toList "pragma solidity 0.8.0; contract A".toList
      " done".toList (by decide) (by decide) (by decide)]
  rfl

/-- The score regex cannot match at a position where the (case-folded) text
does not start with `score`. -/
theorem tryScoreAt_nomatch (c : Char) (t : List Char)
    (h : startsWithL "score".toList ((c :: t).map Char.toLower) = false) :
    tryScoreAt (c :: t) = none := by
  unfold tryScoreAt
  rw [h]
  simp

/-- A reply with no case-insensitive `score` occurrence has no score match. -/
theorem scanScore_none (l : List Char)
    (h : containsL "score".toList (l.map Char.toLower) = false) :
    scanScore l = none := by
  induction l with
  | nil => rfl
  | cons c t ih =>
    have h' : startsWithL "score".toList ((c :: t).map Char.toLower) = false ∧
        containsL "score".toList (t.map Char.toLower) = false := by
      rw [List.map_cons] at h
      rw [show containsL "score".toList (c.toLower :: t.map Char.toLower)
          = (startsWithL "score".toList (c.toLower :: t.map Char.toLower)
            || containsL "score".toList (t.map Char.toLower)) from rfl] at h
      constructor
      · rw [List.map_cons]
        exact (Bool.or_eq_false_iff.mp h).1
      · exact (Bool.or_eq_false_iff.mp h).2
    rw [show scanScore (c :: t)
        = (match tryScoreAt (c :: t) with
           | some ds => some ds
           | none => scanScore t) from rfl]
    rw [tryScoreAt_nomatch c t h'.1]
    exact ih h'.2

/-- The comment regex cannot match at a position where the (case-folded)
text does not start with `comment`. -/
theorem tryCommentAt_nomatch (c : Char) (t : List Char)
    (h : startsWithL "comment".toList ((c :: t).map Char.toLower) = false) :
    tryCommentAt (c :: t) = none := by
  unfold tryCommentAt
  rw [h]
  simp

/-- A reply with no case-insensitive `comment` occurrence has no comment
match. -/
theorem scanComment_none (l : List Char)
    (h : containsL "comment".toList (l.map Char.toLower) = false) :
    scanComment l = none := by
  induction l with
  | nil => rfl
  | cons c t ih =>
    have h' : startsWithL "comment".toList ((c :: t).map Char.toLower) = false ∧
        containsL "comment".toList (t.map Char.toLower) = false := by
      rw [List.map_cons] at h
      rw [show containsL "comment".toList (c.toLower :: t.map Char.toLower)
          = (startsWithL "comment".toList (c.toLower :: t.map Char.toLower)
            || containsL "comment".toList (t.map Char.toLower)) from rfl] at h
      constructor
      · rw [List.map_cons]
        exact (Bool.or_eq_false_iff.mp h).1
      · exact (Bool.or_eq_false_iff.mp h).2
    rw [show scanComment (c :: t)
        = (match tryCommentAt (c :: t) with
           | some cap => some cap
           | none => scanComment t) from rfl]
    rw [tryCommentAt_nomatch c t h'.1]
    exact ih h'.2

/-- C8 counterexample: a reward reply with a `COMMENT:` marker but no
`SCORE:` marker yields `reward_score = 0.0` but a non-empty
`reward_comment` — the comment regex is applied independently, so the claim
that the comment is always `""` in this case is false. -/
theorem C8_missing_score_cex :
    containsL "score".toList ("COMMENT: nice try".toList.map Char.toLower) = false ∧
    parse_reward_output "COMMENT: nice try" = (0, "nice try") := by
  refine ⟨by decide, by decide⟩

/-- C8 (amended): for every reward reply containing no case-insensitive
occurrence of `score`, `parse_reward_output` returns `reward_score = 0.0`
without raising; the comment defaults to `""` provided the reply also
contains no case-insensitive occurrence of `comment` (a `COMMENT:` marker is
still extracted on its own). -/
theorem C8_missing_score_defaults (out : String)
    (hs : containsL "score".toList (out.toList.map Char.toLower) = false) :
    (parse_reward_output out).1 = 0 ∧
    (containsL "comment".toList (out.toList.map Char.toLower) = false →
      (parse_reward_output out).2 = "") := by
  have h1 := scanScore_none out.toList hs
  constructor
  · unfold parse_reward_output
    dsimp only
    rw [h1]
  · intro hc
    have h2 := scanComment_none out.toList hc
    unfold parse_reward_output
    dsimp only
    rw [h1, h2]

/-- Witness for C8: a marker-free reply parses to score 0 and an empty
comment. -/
theorem C8_missing_score_defaults_witness :
    parse_reward_output "The model refused to answer." = (0, "") := by
  have h := C8_missing_score_defaults "The model refused to answer." (by decide)
  exact Prod.ext h.1 (h.2 (by decide))
